import Mathlib

/-!
# Verification of the `finance_dashboard` projection engine

Shallow embedding of the calculation engine of `src/finance_dashboard.py`
(`run_model`) together with the two `numpy_financial` primitives it calls,
`npf.fv` and `npf.pmt` (period payments in arrears, i.e. `when = 'end'`).
Monetary amounts and rates are modelled as rationals, ages as integers,
matching the deterministic arithmetic of the Python source (`float` / `int`).
Division by zero follows Lean's total-division convention `x / 0 = 0`.
-/

namespace FinanceDash

/-- `numpy_financial.fv(rate, nper, pmt, pv, when='end')`:
`temp = (1+rate)**nper`;
`fact = nper if rate == 0 else (temp - 1)/rate`;
result `-(pv*temp + pmt*fact)`. -/
def fv (rate : ℚ) (nper : ℤ) (pmtArg pv : ℚ) : ℚ :=
  let temp : ℚ := (1 + rate) ^ nper
  let fact : ℚ := if rate = 0 then (nper : ℚ) else (temp - 1) / rate;
  -(pv * temp + pmtArg * fact)

/-- `numpy_financial.pmt(rate, nper, pv, fv, when='end')`:
`temp = (1+rate)**nper`;
`fact = nper if rate == 0 else (temp - 1)/rate`;
result `-(fv + pv*temp) / fact`. -/
def pmt (rate : ℚ) (nper : ℤ) (pv fvArg : ℚ) : ℚ :=
  let temp : ℚ := (1 + rate) ^ nper
  let fact : ℚ := if rate = 0 then (nper : ℚ) else (temp - 1) / rate;
  -(fvArg + pv * temp) / fact

/-- The global (sidebar) inputs read by `run_model` from the enclosing scope:
`age`, `life_expectancy`, `inflation`, `return_rate`, and the two numbers
combined into `net_start`. -/
structure Globals where
  age : ℤ
  life_expectancy : ℤ
  inflation : ℚ
  return_rate : ℚ
  liquid_assets : ℚ
  liabilities : ℚ

/-- `net_start = liquid_assets - liabilities` (line 28 of the source). -/
def net_start (g : Globals) : ℚ := g.liquid_assets - g.liabilities

/-- `real_r = (1 + return_rate) / (1 + inflation) - 1` (line 44, Fisher
equation). -/
def real_r (g : Globals) : ℚ := (1 + g.return_rate) / (1 + g.inflation) - 1

/-- `run_model(r_age, annual_sav)` (lines 42-54 of the source):

    real_r = (1 + return_rate) / (1 + inflation) - 1
    years_grow = r_age - age
    years_retire = life_expectancy - r_age
    egg = npf.fv(real_r, years_grow, -annual_sav, -net_start)
    income = npf.pmt(real_r, years_retire, -egg, 0)
    return egg, income, years_grow
-/
def run_model (g : Globals) (r_age : ℤ) (annual_sav : ℚ) : ℚ × ℚ × ℤ :=
  let r : ℚ := real_r g
  let years_grow : ℤ := r_age - g.age
  let years_retire : ℤ := g.life_expectancy - r_age
  let egg : ℚ := fv r years_grow (-annual_sav) (-(net_start g))
  let income : ℚ := pmt r years_retire (-egg) 0
  (egg, income, years_grow)

/-- Projected nest egg at retirement: first component of `run_model`. -/
def nest_egg (g : Globals) (r_age : ℤ) (annual_sav : ℚ) : ℚ :=
  (run_model g r_age annual_sav).1

/-- Sustainable annual income: second component of `run_model`. -/
def income (g : Globals) (r_age : ℤ) (annual_sav : ℚ) : ℚ :=
  (run_model g r_age annual_sav).2.1

/-- A concrete instance of the globals used to witness the theorems below:
age 1, life expectancy 3, inflation 0, nominal return 100 %, assets 5,
liabilities 2 (so `net_start = 3` and `real_r = 1`). -/
def gW : Globals := ⟨1, 3, 0, 1, 5, 2⟩

/-- `npf.fv` at a natural number of periods equals the textbook
principal-plus-annuity sum: each contribution and the principal compounded
forward and summed (both branches of the `rate == 0` mask). -/
theorem fv_natCast (r p_ pv : ℚ) (n : ℕ) :
    fv r (n : ℤ) p_ pv
      = -(pv * (1 + r) ^ n + p_ * ∑ k in Finset.range n, (1 + r) ^ k) := by
  by_cases hr : r = 0
  · subst hr
    simp [fv]
  · have h1 : (1 : ℚ) + r ≠ 1 := fun h => hr (by linarith)
    simp [fv, hr, zpow_natCast, geom_sum_eq h1, add_sub_cancel_left]

/-- The nest egg computed by `run_model`, for a non-negative accumulation
horizon, as principal growth plus the compounded contributions. -/
theorem nest_egg_eq_sum (g : Globals) (r_age : ℤ) (s : ℚ)
    (h : g.age ≤ r_age) :
    nest_egg g r_age s
      = net_start g * (1 + real_r g) ^ (r_age - g.age).toNat
        + s * ∑ k in Finset.range (r_age - g.age).toNat, (1 + real_r g) ^ k := by
  have hn : (((r_age - g.age).toNat : ℤ)) = r_age - g.age :=
    Int.toNat_of_nonneg (by omega)
  have key := fv_natCast (real_r g) (-s) (-(net_start g)) (r_age - g.age).toNat
  rw [hn] at key
  unfold nest_egg run_model
  simp only []
  rw [key]
  ring

/-- C1: for `years_grow = retirement_age - current_age ≥ 0` the nest egg
returned by `run_model` is the starting principal compounded at `real_r`
for `years_grow` periods plus each of the `years_grow` annual contributions
compounded forward and summed; for `real_r ≠ 0` this equals
`net_start * (1+r)^n + annual_savings * ((1+r)^n - 1) / r`. -/
theorem nest_egg_closed_form (g : Globals) (r_age : ℤ) (s : ℚ)
    (h : 0 ≤ r_age - g.age) :
    nest_egg g r_age s
      = net_start g * (1 + real_r g) ^ (r_age - g.age).toNat
        + s * ∑ k in Finset.range (r_age - g.age).toNat, (1 + real_r g) ^ k
    ∧ (real_r g ≠ 0 →
      nest_egg g r_age s
        = net_start g * (1 + real_r g) ^ (r_age - g.age).toNat
          + s * (((1 + real_r g) ^ (r_age - g.age).toNat - 1) / real_r g)) := by
  refine ⟨nest_egg_eq_sum g r_age s (by omega), fun hr => ?_⟩
  rw [nest_egg_eq_sum g r_age s (by omega),
    geom_sum_eq (fun h1 => hr (by linarith)), add_sub_cancel_left]

/-- Witness for C1 at the concrete input `gW`, retirement age 2,
annual savings 10. -/
theorem nest_egg_closed_form_witness :
    (0 ≤ (2 : ℤ) - gW.age) ∧
    (nest_egg gW 2 10
      = net_start gW * (1 + real_r gW) ^ ((2 : ℤ) - gW.age).toNat
        + 10 * ∑ k in Finset.range ((2 : ℤ) - gW.age).toNat, (1 + real_r gW) ^ k
    ∧ (real_r gW ≠ 0 →
      nest_egg gW 2 10
        = net_start gW * (1 + real_r gW) ^ ((2 : ℤ) - gW.age).toNat
          + 10 * (((1 + real_r gW) ^ ((2 : ℤ) - gW.age).toNat - 1) / real_r gW))) :=
  ⟨by decide, nest_egg_closed_form gW 2 10 (by decide)⟩

/-- C3: the rate used by the engine satisfies the Fisher relation
`(1 + real_r) * (1 + inflation) = 1 + nominal_return` (equivalently
`real_r = (1+nominal)/(1+inflation) - 1`) whenever `inflation ≠ -1`, and
this derived rate — not any directly supplied one — is the rate passed to
both the accumulation (`fv`) and withdrawal (`pmt`) computations. -/
theorem real_rate_fisher (g : Globals) (r_age : ℤ) (s : ℚ)
    (h : g.inflation ≠ -1) :
    (1 + real_r g) * (1 + g.inflation) = 1 + g.return_rate ∧
    run_model g r_age s =
      (fv (real_r g) (r_age - g.age) (-s) (-(net_start g)),
       pmt (real_r g) (g.life_expectancy - r_age)
         (-(fv (real_r g) (r_age - g.age) (-s) (-(net_start g)))) 0,
       r_age - g.age) := by
  refine ⟨?_, rfl⟩
  have h1 : (1 : ℚ) + g.inflation ≠ 0 := fun h0 => h (by linarith)
  unfold real_r
  field_simp

/-- Witness for C3 at the concrete input `gW`, retirement age 2,
annual savings 10. -/
theorem real_rate_fisher_witness :
    (1 + real_r gW) * (1 + gW.inflation) = 1 + gW.return_rate ∧
    run_model gW 2 10 =
      (fv (real_r gW) (2 - gW.age) (-10) (-(net_start gW)),
       pmt (real_r gW) (gW.life_expectancy - 2)
         (-(fv (real_r gW) (2 - gW.age) (-10) (-(net_start gW)))) 0,
       2 - gW.age) :=
  real_rate_fisher gW 2 10 (by decide)

/-- C4: when the nominal return rate equals the inflation rate (and the
inflation rate is not the degenerate −100 %, which the source's slider bound
`0 ≤ inflation ≤ 0.08` guarantees), the derived real rate is exactly zero
and, for a non-negative horizon, the nest egg is the straight-line value
`net_start + annual_savings * years_grow`, with no division by `real_r`. -/
theorem zero_growth_equivalence (g : Globals) (r_age : ℤ) (s : ℚ)
    (h0 : g.return_rate = g.inflation) (h1 : g.inflation ≠ -1)
    (h2 : 0 ≤ r_age - g.age) :
    real_r g = 0 ∧
    nest_egg g r_age s = net_start g + s * ((r_age - g.age : ℤ) : ℚ) := by
  have hr : real_r g = 0 := by
    unfold real_r
    rw [h0, div_self (fun h => h1 (by linarith))]
    ring
  refine ⟨hr, ?_⟩
  have hn : (((r_age - g.age).toNat : ℤ)) = r_age - g.age :=
    Int.toNat_of_nonneg (by omega)
  have hq : (((r_age - g.age).toNat : ℕ) : ℚ) = ((r_age - g.age : ℤ) : ℚ) := by
    exact_mod_cast hn
  rw [nest_egg_eq_sum g r_age s (by omega), hr]
  simp only [add_zero, one_pow, mul_one, Finset.sum_const, Finset.card_range,
    nsmul_eq_mul]
  rw [hq]

/-- Witness for C4: globals with return rate equal to inflation rate. -/
theorem zero_growth_equivalence_witness :
    ((⟨1, 3, 1, 1, 5, 2⟩ : Globals).return_rate
        = (⟨1, 3, 1, 1, 5, 2⟩ : Globals).inflation) ∧
    ((⟨1, 3, 1, 1, 5, 2⟩ : Globals).inflation ≠ -1) ∧
    (0 ≤ (2 : ℤ) - (⟨1, 3, 1, 1, 5, 2⟩ : Globals).age) ∧
    (real_r ⟨1, 3, 1, 1, 5, 2⟩ = 0 ∧
      nest_egg ⟨1, 3, 1, 1, 5, 2⟩ 2 10
        = net_start ⟨1, 3, 1, 1, 5, 2⟩
          + 10 * (((2 : ℤ) - (⟨1, 3, 1, 1, 5, 2⟩ : Globals).age : ℤ) : ℚ)) :=
  ⟨by decide, by decide, by decide,
    zero_growth_equivalence ⟨1, 3, 1, 1, 5, 2⟩ 2 10 rfl (by decide) (by decide)⟩

/-- C6: when the retirement age equals the life expectancy, the retirement
horizon `years_retire` is zero, the annuity factor in the payment formula is
zero (so no meaningful income is solvable: the payment formula divides by
zero), and the income of the embedding — where division by zero yields
zero — is `0`. -/
theorem zero_retirement_horizon (g : Globals) (r_age : ℤ) (s : ℚ)
    (h : r_age = g.life_expectancy) :
    g.life_expectancy - r_age = 0 ∧ income g r_age s = 0 := by
  subst h
  refine ⟨by ring, ?_⟩
  unfold income run_model pmt
  simp only [sub_self, zpow_zero]
  by_cases hr : real_r g = 0 <;> simp [hr]

/-- Witness for C6 at the concrete input `gW`, retirement age 3 equal to
the life expectancy. -/
theorem zero_retirement_horizon_witness :
    gW.life_expectancy - 3 = 0 ∧ income gW 3 10 = 0 :=
  zero_retirement_horizon gW 3 10 (by decide)

/-- C7: when the retirement age equals the current age (`years_grow = 0`),
the nest egg returned by `run_model` is exactly the starting net assets,
regardless of the annual savings and of the rates. -/
theorem zero_horizon_identity (g : Globals) (s : ℚ) (r_age : ℤ)
    (h : r_age = g.age) : nest_egg g r_age s = net_start g := by
  subst h
  unfold nest_egg run_model fv
  simp only [sub_self, zpow_zero]
  by_cases hr : real_r g = 0 <;> simp [hr]

/-- Witness for C7 at the concrete input `gW`, retirement age 1 equal to
the current age. -/
theorem zero_horizon_identity_witness :
    nest_egg gW 1 10 = net_start gW :=
  zero_horizon_identity gW 10 1 rfl

/-- The real rate of the witness globals `gW` is 1 (100 % nominal return,
zero inflation). -/
theorem real_r_gW : real_r gW = 1 := by
  norm_num [real_r, gW]

/-- For a rate strictly above −100 % and nonzero, the compounding factor over
a positive integer number of periods is not 1. -/
theorem one_add_zpow_ne_one (r : ℚ) (n : ℤ) (hr1 : -1 < r) (hr0 : r ≠ 0)
    (hn : 1 ≤ n) : (1 + r) ^ n ≠ 1 := by
  obtain ⟨m, rfl⟩ : ∃ m : ℕ, n = (m : ℤ) :=
    ⟨n.toNat, (Int.toNat_of_nonneg (by omega)).symm⟩
  rw [zpow_natCast]
  have hm : m ≠ 0 := by omega
  rcases lt_or_gt_of_ne hr0 with h | h
  · exact ne_of_lt (pow_lt_one₀ (by linarith) (by linarith) hm)
  · exact ne_of_gt (one_lt_pow₀ (by linarith) hm)

/-- C2: for `years_retire = life_expectancy - retirement_age ≥ 1` and
`real_r > -1`, the sustainable annual income returned by `run_model` is the
level annuity payment that exhausts the nest egg:
`nest_egg * real_r * (1+real_r)^years_retire / ((1+real_r)^years_retire - 1)`
when `real_r ≠ 0`, and `nest_egg / years_retire` when `real_r = 0`. -/
theorem sustainable_income_closed_form (g : Globals) (r_age : ℤ) (s : ℚ)
    (h1 : 1 ≤ g.life_expectancy - r_age) (h2 : -1 < real_r g) :
    (real_r g ≠ 0 →
      income g r_age s
        = nest_egg g r_age s * real_r g
            * (1 + real_r g) ^ (g.life_expectancy - r_age)
          / ((1 + real_r g) ^ (g.life_expectancy - r_age) - 1)) ∧
    (real_r g = 0 →
      income g r_age s
        = nest_egg g r_age s / ((g.life_expectancy - r_age : ℤ) : ℚ)) := by
  constructor
  · intro hr
    have hne : (1 + real_r g) ^ (g.life_expectancy - r_age) ≠ 1 :=
      one_add_zpow_ne_one _ _ h2 hr h1
    have hd : (1 + real_r g) ^ (g.life_expectancy - r_age) - 1 ≠ 0 :=
      sub_ne_zero.mpr hne
    unfold income nest_egg run_model pmt
    simp only [if_neg hr]
    field_simp
    ring
  · intro hr
    unfold income nest_egg run_model pmt
    simp only [hr, eq_self_iff_true, if_true, add_zero, one_zpow]
    ring

/-- Witness for C2 at the concrete input `gW`, retirement age 2
(one retirement year, `real_r gW = 1`). -/
theorem sustainable_income_closed_form_witness :
    (1 ≤ gW.life_expectancy - 2) ∧ (-1 < real_r gW) ∧
    ((real_r gW ≠ 0 →
      income gW 2 10
        = nest_egg gW 2 10 * real_r gW
            * (1 + real_r gW) ^ (gW.life_expectancy - 2)
          / ((1 + real_r gW) ^ (gW.life_expectancy - 2) - 1)) ∧
    (real_r gW = 0 →
      income gW 2 10
        = nest_egg gW 2 10 / ((gW.life_expectancy - 2 : ℤ) : ℚ))) :=
  ⟨by decide, by rw [real_r_gW]; decide,
    sustainable_income_closed_form gW 2 10 (by decide)
      (by rw [real_r_gW]; decide)⟩

/-- C5: withdrawal-exhaustion round trip. For `years_retire ≥ 1` and
`real_r > -1`, feeding the computed income back into the future-value
function with the nest egg as (negated) present value yields exactly zero:
`fv(real_r, years_retire, income, -nest_egg) = 0`. -/
theorem withdrawal_round_trip (g : Globals) (r_age : ℤ) (s : ℚ)
    (h1 : 1 ≤ g.life_expectancy - r_age) (h2 : -1 < real_r g) :
    fv (real_r g) (g.life_expectancy - r_age) (income g r_age s)
      (-(nest_egg g r_age s)) = 0 := by
  by_cases hr : real_r g = 0
  · have hyr : ((g.life_expectancy - r_age : ℤ) : ℚ) ≠ 0 := by
      exact_mod_cast (by omega : (g.life_expectancy - r_age : ℤ) ≠ 0)
    push_cast at hyr
    unfold fv income nest_egg run_model pmt
    simp only [hr, eq_self_iff_true, if_true, add_zero, one_zpow]
    push_cast
    field_simp
  · have hne : (1 + real_r g) ^ (g.life_expectancy - r_age) ≠ 1 :=
      one_add_zpow_ne_one _ _ h2 hr h1
    have hd : (1 + real_r g) ^ (g.life_expectancy - r_age) - 1 ≠ 0 :=
      sub_ne_zero.mpr hne
    unfold fv income nest_egg run_model pmt
    simp only [if_neg hr]
    field_simp

/-- Witness for C5 at the concrete input `gW`, retirement age 2. -/
theorem withdrawal_round_trip_witness :
    fv (real_r gW) (gW.life_expectancy - 2) (income gW 2 10)
      (-(nest_egg gW 2 10)) = 0 :=
  withdrawal_round_trip gW 2 10 (by decide) (by rw [real_r_gW]; decide)

/-- Globals refuting C8: age 20, life expectancy 95, zero inflation, 7 %
nominal return (so `real_r = 7/100 > 0`), no assets, 100 of liabilities
(so `net_start = -100`). -/
def gC8 : Globals := ⟨20, 95, 0, 7 / 100, 0, 100⟩

/-- C8 counterexample: with a negative starting net worth (assets 0,
liabilities 100) and zero savings, the real rate is positive and both
retirement ages 21 and 22 give a positive accumulation horizon, yet the
nest egg for the later retirement age 22 is strictly smaller than for 21
(the debt compounds), refuting the claimed strict increase. -/
theorem retire_age_monotone_counterexample :
    0 < real_r gC8 ∧ gC8.age < 21 ∧ (21 : ℤ) < 22 ∧
      nest_egg gC8 22 0 < nest_egg gC8 21 0 := by
  refine ⟨by norm_num [real_r, gC8], by decide, by decide, ?_⟩
  norm_num [nest_egg, run_model, fv, real_r, net_start, gC8]

/-- C8 amended: for two inputs identical except for retirement ages
`r1 < r2`, both past the current age, with positive real rate and
`net_start * real_r + annual_savings > 0` (in particular whenever the
starting net assets are non-negative and the contribution is positive),
the nest egg strictly increases and the retirement horizon decreases by
`r2 - r1`. -/
theorem retire_age_monotone (g : Globals) (s : ℚ) (r1 r2 : ℤ)
    (h1 : g.age < r1) (h2 : r1 < r2) (h3 : 0 < real_r g)
    (h4 : 0 < net_start g * real_r g + s) :
    nest_egg g r1 s < nest_egg g r2 s ∧
      g.life_expectancy - r2 = g.life_expectancy - r1 - (r2 - r1) := by
  refine ⟨?_, by ring⟩
  have hr : real_r g ≠ 0 := ne_of_gt h3
  have hx : (1 : ℚ) < 1 + real_r g := by linarith
  rw [nest_egg_eq_sum g r1 s (le_of_lt h1), nest_egg_eq_sum g r2 s (by omega),
    geom_sum_eq (fun h => hr (by linarith)),
    geom_sum_eq (fun h => hr (by linarith)), add_sub_cancel_left]
  have hn : (r1 - g.age).toNat < (r2 - g.age).toNat := by omega
  have hlt : (1 + real_r g) ^ (r1 - g.age).toNat
      < (1 + real_r g) ^ (r2 - g.age).toNat := pow_lt_pow_right₀ hx hn
  have key : (net_start g * (1 + real_r g) ^ (r2 - g.age).toNat
        + s * (((1 + real_r g) ^ (r2 - g.age).toNat - 1) / real_r g))
      - (net_start g * (1 + real_r g) ^ (r1 - g.age).toNat
        + s * (((1 + real_r g) ^ (r1 - g.age).toNat - 1) / real_r g))
      = (net_start g * real_r g + s)
        * ((1 + real_r g) ^ (r2 - g.age).toNat
          - (1 + real_r g) ^ (r1 - g.age).toNat) / real_r g := by
    field_simp
    ring
  have pos : 0 < (net_start g * real_r g + s)
      * ((1 + real_r g) ^ (r2 - g.age).toNat
        - (1 + real_r g) ^ (r1 - g.age).toNat) / real_r g :=
    div_pos (mul_pos h4 (sub_pos.mpr hlt)) h3
  linarith

/-- Witness for the amended C8 at the concrete input `gW` (net assets 3,
savings 10, real rate 1), retirement ages 2 < 3. -/
theorem retire_age_monotone_witness :
    (gW.age < 2) ∧ ((2 : ℤ) < 3) ∧ (0 < real_r gW) ∧
      (0 < net_start gW * real_r gW + 10) ∧
      (nest_egg gW 2 10 < nest_egg gW 3 10 ∧
        gW.life_expectancy - 3 = gW.life_expectancy - 2 - (3 - 2)) :=
  ⟨by decide, by decide, by rw [real_r_gW]; decide,
    by rw [real_r_gW]; norm_num [net_start, gW],
    retire_age_monotone gW 10 2 3 (by decide) (by decide)
      (by rw [real_r_gW]; decide)
      (by rw [real_r_gW]; norm_num [net_start, gW])⟩

/-- C9: for two inputs identical except for the annual savings `s1 < s2`,
with a positive accumulation horizon and `real_r > -1`, the nest egg
strictly increases with the savings. -/
theorem savings_monotone (g : Globals) (r_age : ℤ) (s1 s2 : ℚ)
    (h1 : g.age < r_age) (h2 : -1 < real_r g) (h3 : s1 < s2) :
    nest_egg g r_age s1 < nest_egg g r_age s2 := by
  rw [nest_egg_eq_sum g r_age s1 (le_of_lt h1),
    nest_egg_eq_sum g r_age s2 (le_of_lt h1)]
  have hx : (0 : ℚ) < 1 + real_r g := by linarith
  have hpos : 0 < ∑ k in Finset.range (r_age - g.age).toNat,
      (1 + real_r g) ^ k := by
    apply Finset.sum_pos
    · intro k _
      exact pow_pos hx k
    · exact ⟨0, Finset.mem_range.mpr (by omega)⟩
  have := mul_lt_mul_of_pos_right h3 hpos
  linarith

/-- Witness for C9 at the concrete input `gW`, retirement age 2,
savings 10 < 20. -/
theorem savings_monotone_witness :
    (gW.age < 2) ∧ (-1 < real_r gW) ∧ ((10 : ℚ) < 20) ∧
      nest_egg gW 2 10 < nest_egg gW 2 20 :=
  ⟨by decide, by rw [real_r_gW]; decide, by norm_num,
    savings_monotone gW 2 10 20 (by decide) (by rw [real_r_gW]; decide)
      (by norm_num)⟩

/-- C10: holding a positive nest egg `E` and a rate `r > -1` fixed, the
payment computation used by the engine (`npf.pmt(r, n, -E, 0)`) is strictly
decreasing in the number of retirement years: for `1 ≤ n1 < n2` the income
over `n2` years is strictly smaller than over `n1` years. -/
theorem income_antitone_in_years (r E : ℚ) (n1 n2 : ℤ)
    (hE : 0 < E) (hr : -1 < r) (h1 : 1 ≤ n1) (h12 : n1 < n2) :
    pmt r n2 (-E) 0 < pmt r n1 (-E) 0 := by
  have hx : (0 : ℚ) < 1 + r := by linarith
  by_cases hr0 : r = 0
  · subst hr0
    unfold pmt
    simp only [eq_self_iff_true, if_true, add_zero, one_zpow, zero_add,
      mul_one, neg_neg]
    have c1 : (0 : ℚ) < ((n1 : ℤ) : ℚ) := by
      exact_mod_cast (by omega : (0 : ℤ) < n1)
    have c2 : ((n1 : ℤ) : ℚ) < ((n2 : ℤ) : ℚ) := by exact_mod_cast h12
    exact div_lt_div_of_pos_left hE c1 c2
  · have hform : ∀ n : ℤ, 1 ≤ n →
        pmt r n (-E) 0 = E * r * (1 + r) ^ n / ((1 + r) ^ n - 1) := by
      intro n hn
      have hd : (1 + r) ^ n - 1 ≠ 0 :=
        sub_ne_zero.mpr (one_add_zpow_ne_one r n hr hr0 hn)
      unfold pmt
      simp only [if_neg hr0]
      field_simp
      ring
    rw [hform n1 h1, hform n2 (by omega)]
    obtain ⟨m1, rfl⟩ : ∃ m : ℕ, n1 = (m : ℤ) :=
      ⟨n1.toNat, (Int.toNat_of_nonneg (by omega)).symm⟩
    obtain ⟨m2, rfl⟩ : ∃ m : ℕ, n2 = (m : ℤ) :=
      ⟨n2.toNat, (Int.toNat_of_nonneg (by omega)).symm⟩
    rw [zpow_natCast, zpow_natCast]
    have hm1 : m1 ≠ 0 := by omega
    have hm : m1 < m2 := by omega
    rcases lt_or_gt_of_ne hr0 with hneg | hpos
    · have hx1 : (1 : ℚ) + r < 1 := by linarith
      have hlt : (1 + r) ^ m2 < (1 + r) ^ m1 :=
        pow_lt_pow_right_of_lt_one₀ hx hx1 hm
      have d1 : (1 + r) ^ m1 - 1 < 0 :=
        sub_neg.mpr (pow_lt_one₀ (le_of_lt hx) hx1 hm1)
      have d2 : (1 + r) ^ m2 - 1 < 0 :=
        sub_neg.mpr (pow_lt_one₀ (le_of_lt hx) hx1 (by omega))
      rw [← neg_div_neg_eq (E * r * (1 + r) ^ m2),
        ← neg_div_neg_eq (E * r * (1 + r) ^ m1),
        div_lt_div_iff₀ (by linarith) (by linarith)]
      have pos : 0 < E * r * ((1 + r) ^ m2 - (1 + r) ^ m1) :=
        mul_pos_of_neg_of_neg (mul_neg_of_pos_of_neg hE hneg)
          (by linarith)
      nlinarith [pos]
    · have hx1 : (1 : ℚ) < 1 + r := by linarith
      have hlt : (1 + r) ^ m1 < (1 + r) ^ m2 := pow_lt_pow_right₀ hx1 hm
      have d1 : 0 < (1 + r) ^ m1 - 1 :=
        sub_pos.mpr (one_lt_pow₀ hx1 hm1)
      have d2 : 0 < (1 + r) ^ m2 - 1 :=
        sub_pos.mpr (one_lt_pow₀ hx1 (by omega))
      rw [div_lt_div_iff₀ d2 d1]
      have pos : 0 < E * r * ((1 + r) ^ m2 - (1 + r) ^ m1) :=
        mul_pos (mul_pos hE hpos) (by linarith)
      nlinarith [pos]

/-- Witness for C10 at rate 1, nest egg 100, horizons 1 < 2. -/
theorem income_antitone_in_years_witness :
    ((0 : ℚ) < 100) ∧ ((-1 : ℚ) < 1) ∧ ((1 : ℤ) ≤ 1) ∧ ((1 : ℤ) < 2) ∧
      pmt 1 2 (-100) 0 < pmt 1 1 (-100) 0 :=
  ⟨by norm_num, by norm_num, by decide, by decide,
    income_antitone_in_years 1 100 1 2 (by norm_num) (by norm_num)
      (by decide) (by decide)⟩

end FinanceDash
